import Mathlib

/-!
Verification of the search-and-resolve engine of the vfm note organizer
(src/vfm/vfm.py), as a shallow embedding in Lean 4.

Modelling conventions:
* Python strings are Lean `String`s; character-level operations are defined
  by structural recursion on `String.data` so that they are provable by
  induction and executable by `decide`/`rfl`.
* Filesystem paths are plain strings; a `FS` value lists the files (with
  contents) and the directories that exist.  `expanduser().resolve()` is an
  abstract parameter `rp : String → String` (it is pure OS behaviour).
* Python's `re` module is an abstract parameter
  `compile : String → Bool → Option (String → Bool)`: `re.compile` either
  fails (invalid pattern, modelled as `none`) or yields a matcher
  (`regex.search(text)` is truthy).  A small executable instance
  `reCompileModel` is provided for concrete evaluations.
* Filesystem effects of the managers are made explicit as an `Eff` trace:
  every `read_text`, `write_text` and `mkdir` call of the source appends
  one trace entry.
-/

namespace VFM

/-- Whitespace characters stripped by Python `str.strip()` / `str.split()`
(ASCII subset; the notes under test contain no exotic whitespace). -/
def pyWhitespace (c : Char) : Bool :=
  c = ' ' || c = '\t' || c = '\n' || c = '\r' || c = '\x0B' || c = '\x0C'

/-- Model of Python `str.strip()` on the character list. -/
def stripChars (cs : List Char) : List Char :=
  ((cs.dropWhile pyWhitespace).reverse.dropWhile pyWhitespace).reverse

/-- Prepend a character to the first chunk of a chunk list (helper shared by
the splitting functions below). -/
def consHead (c : Char) : List (List Char) → List (List Char)
  | [] => [[c]]
  | h :: t => (c :: h) :: t

/-- Model of Python `str.splitlines()` for `\n`-separated text: chunks
between newlines, with no trailing empty line for text ending in `\n`. -/
def splitlinesChars : List Char → List (List Char)
  | [] => []
  | c :: cs => if c = '\n' then [] :: splitlinesChars cs else consHead c (splitlinesChars cs)

/-- Model of Python `str.split("---")` (all occurrences, left to right,
non-overlapping). -/
def splitDashes : List Char → List (List Char)
  | [] => [[]]
  | [c] => [[c]]
  | [c, d] => [[c, d]]
  | c :: d :: e :: rest =>
    if c == '-' && d == '-' && e == '-' then [] :: splitDashes rest
    else consHead c (splitDashes (d :: e :: rest))

/-- Model of Python `str.split("---", 2)`: at most two splits, the third
part keeps later delimiters. -/
def pySplitDash2 (cs : List Char) : List (List Char) :=
  match splitDashes cs with
  | p0 :: p1 :: p2 :: rest => [p0, p1, List.intercalate ['-', '-', '-'] (p2 :: rest)]
  | parts => parts

/-- Model of Python `str.isdigit()` (ASCII digits). -/
def pyIsDigit (cs : List Char) : Bool :=
  !cs.isEmpty && cs.all Char.isDigit

/-- Model of Python `int(...)` on a digit string. -/
def pyStrToNat (cs : List Char) : Nat :=
  cs.foldl (fun n c => 10 * n + (c.toNat - 48)) 0

/-- Split on single whitespace characters (auxiliary for word counting). -/
def splitWSAux : List Char → List (List Char)
  | [] => [[]]
  | c :: cs => if pyWhitespace c then [] :: splitWSAux cs else consHead c (splitWSAux cs)

/-- Model of Python `len(line.split())`: number of maximal nonempty
whitespace-free chunks. -/
def pyWordCount (cs : List Char) : Nat :=
  ((splitWSAux cs).filter (fun w => w ≠ [])).length

/-- First-match association-list lookup, modelling Python `dict[k]` /
`k in dict` over the configured `spaces` mapping (keys are unique in a
`dict`, so first-match agrees with it). -/
def dictLookup {α : Type} (l : List (String × α)) (k : String) : Option α :=
  match l with
  | [] => none
  | kv :: rest => if kv.1 = k then some kv.2 else dictLookup rest k

/-- Model of Python `str.lower()` on characters. -/
def lowerChars (cs : List Char) : List Char := cs.map Char.toLower

/-- Final path component (text after the last `/`). -/
def baseName (p : String) : List Char :=
  (p.data.reverse.takeWhile (fun c => c ≠ '/')).reverse

/-- Model of `pathlib.PurePath.suffix`: from the last dot of the final
component, empty when there is no dot or the only dot is leading. -/
def pySuffix (p : String) : List Char :=
  let name := baseName p
  let afterDot := name.reverse.takeWhile (fun c => c ≠ '.')
  if afterDot.length = name.length then []
  else if afterDot.length + 1 = name.length then []
  else '.' :: afterDot.reverse

/-- One filesystem effect performed by the source code: `Path.read_text`,
`Path.write_text`, or `Path.mkdir`. -/
inductive Eff where
  | read (p : String)
  | write (p : String) (content : String)
  | mkdir (p : String)
deriving DecidableEq

/-- Whether an effect mutates the filesystem (creates, writes or deletes). -/
def Eff.mutates : Eff → Bool
  | .read _ => false
  | .write _ _ => true
  | .mkdir _ => true

/-- A trace is mutation-free. -/
def noWrites (tr : List Eff) : Bool := tr.all (fun e => !e.mutates)

/-- The filesystem visible to one invocation: files with their text content
(keys are canonical absolute paths) and the set of existing directories. -/
structure FS where
  files : List (String × String)
  dirs : List String

/-- Model of `Path.read_text` (with the source's `try`/`except` shape:
`none` means the read raised and the file is skipped). -/
def FS.read (fs : FS) (p : String) : Option String := dictLookup fs.files p

/-- `p` lies strictly below directory `d` (paths are canonical absolute). -/
def isUnder (d p : String) : Bool := (d.data ++ ['/']).isPrefixOf p.data

/-- Model of `d.rglob("*.md")`: every file below `d` whose name ends in
`.md`, in the filesystem's enumeration order; a non-existent directory
yields nothing, exactly as `pathlib` does. -/
def FS.rglobMd (fs : FS) (d : String) : List String :=
  (fs.files.map Prod.fst).filter (fun p => isUnder d p && ['.', 'm', 'd'].isSuffixOf p.data)

/-- An entry produced by `d.rglob("*")`: a directory or a file. -/
inductive Entry where
  | dir (p : String)
  | file (p : String)
deriving DecidableEq

/-- Model of `d.rglob("*")`: all directories and files below `d`. -/
def FS.rglobAll (fs : FS) (d : String) : List Entry :=
  (fs.dirs.filter (fun p => isUnder d p)).map Entry.dir
    ++ ((fs.files.map Prod.fst).filter (fun p => isUnder d p)).map Entry.file

namespace SearchManager

/-- Embedding of `SearchManager._resolve_dirs` (src/vfm/vfm.py:242-247):
`"all"` maps to every configured space directory in order; otherwise a
configured name maps to its directory; otherwise the target itself is
resolved as a path. -/
def resolve_dirs (rp : String → String) (spaces : List (String × String))
    (target : String) : List String :=
  if target = "all" then spaces.map (fun kv => rp kv.2)
  else
    match dictLookup spaces target with
    | some dir => [rp dir]
    | none => [rp target]

/-- Embedding of `SearchManager._extract_h1` (src/vfm/vfm.py:249-254), the
loop body: first line that starts with `"# "` and not `"##"` yields
`line[2:].strip()`. -/
def extract_h1_go : List (List Char) → Option String
  | [] => none
  | line :: rest =>
    if ['#', ' '].isPrefixOf line && !(['#', '#'].isPrefixOf line) then
      some ⟨stripChars (line.drop 2)⟩
    else extract_h1_go rest

/-- Embedding of `SearchManager._extract_h1` on a whole text. -/
def extract_h1 (text : String) : Option String :=
  extract_h1_go (splitlinesChars text.data)

end SearchManager

namespace StatsManager

/-- Embedding of `StatsManager._resolve_dirs` (src/vfm/vfm.py:314-319),
written out separately because the source duplicates the function. -/
def resolve_dirs (rp : String → String) (spaces : List (String × String))
    (target : String) : List String :=
  if target = "all" then spaces.map (fun kv => rp kv.2)
  else
    match dictLookup spaces target with
    | some dir => [rp dir]
    | none => [rp target]

end StatsManager

/-- C9: the directory-resolution function of `SearchManager` and the one of
`StatsManager` (two duplicated implementations in the source) are
extensionally equal. -/
theorem c9_resolver_equivalence (rp : String → String)
    (spaces : List (String × String)) (target : String) :
    SearchManager.resolve_dirs rp spaces target
      = StatsManager.resolve_dirs rp spaces target := rfl

/-- C1: target resolution follows a fixed precedence: the sentinel `"all"`
returns every configured space's resolved directory in configured order
(even if a space is literally named `"all"`, since this branch fires
unconditionally); a configured name returns that space's resolved
directory; anything else is resolved as a literal path. -/
theorem c1_resolve_precedence (rp : String → String)
    (spaces : List (String × String)) (target : String) :
    (target = "all" →
      SearchManager.resolve_dirs rp spaces target = spaces.map (fun kv => rp kv.2))
  ∧ (∀ dir : String, target ≠ "all" → dictLookup spaces target = some dir →
      SearchManager.resolve_dirs rp spaces target = [rp dir])
  ∧ (target ≠ "all" → dictLookup spaces target = none →
      SearchManager.resolve_dirs rp spaces target = [rp target]) := by
  refine ⟨fun h => ?_, fun dir h hl => ?_, fun h hl => ?_⟩
  · simp [SearchManager.resolve_dirs, h]
  · simp [SearchManager.resolve_dirs, h, hl]
  · simp [SearchManager.resolve_dirs, h, hl]

/-- The three branches of `c1_resolve_precedence` at concrete inputs; the
configuration contains a space literally named `"all"` which the sentinel
shadows. -/
theorem c1_resolve_precedence_witness :
    SearchManager.resolve_dirs id [("all", "/shadow"), ("work", "/w")] "all"
      = ["/shadow", "/w"]
  ∧ SearchManager.resolve_dirs id [("all", "/shadow"), ("work", "/w")] "work"
      = ["/w"]
  ∧ SearchManager.resolve_dirs id [("all", "/shadow"), ("work", "/w")] "/tmp/x"
      = ["/tmp/x"] := by
  refine ⟨((c1_resolve_precedence id _ "all").1 rfl).trans (by decide), ?_, ?_⟩
  · exact (c1_resolve_precedence id _ "work").2.1 "/w" (by decide) (by decide)
  · exact (c1_resolve_precedence id _ "/tmp/x").2.2 (by decide) (by decide)

/-- `needle` occurs as a contiguous run inside `hay`. -/
def listInfix (needle : List Char) : List Char → Bool
  | [] => needle.isEmpty
  | c :: cs => needle.isPrefixOf (c :: cs) || listInfix needle cs

/-- Literal-substring matcher (model of `regex.search` for patterns with no
metacharacters), used to instantiate witnesses. -/
def containsStr (needle hay : String) : Bool := listInfix needle.data hay.data

/-- Parenthesis balance check (auxiliary for `reCompileModel`). -/
def parenBalance : List Char → Int → Bool
  | [], acc => acc = 0
  | c :: cs, acc =>
    if c = '(' then parenBalance cs (acc + 1)
    else if c = ')' then (if 0 < acc then parenBalance cs (acc - 1) else false)
    else parenBalance cs acc

/-- Minimal executable model of the stdlib `re` module for instantiating
witnesses: a pattern compiles when its parentheses balance (so `"("` is
invalid, as in `re.compile`), and a compiled pattern matches by literal
substring; the case flag is not interpreted by this model. -/
def reCompileModel (pat : String) (_ic : Bool) : Option (String → Bool) :=
  if parenBalance pat.data 0 then some (containsStr pat) else none

namespace SearchManager

/-- The inner-loop body of `SearchManager.search` (src/vfm/vfm.py:228-238)
on one file: skip files already seen, read the text (a failed read skips
the file), record `(path, _extract_h1(text))` when the pattern matches.
The accumulator carries the match list, the `seen` set (as a list) and the
effect trace. -/
def scanStep (regex : String → Bool) (fs : FS)
    (acc : List (String × Option String) × List String × List Eff) (md : String) :
    List (String × Option String) × List String × List Eff :=
  let (ms, seen, tr) := acc
  if seen.contains md then (ms, seen, tr)
  else
    match fs.read md with
    | none => (ms, seen, tr ++ [Eff.read md])
    | some text =>
      if regex text then
        (ms ++ [(md, extract_h1 text)], seen ++ [md], tr ++ [Eff.read md])
      else (ms, seen, tr ++ [Eff.read md])

/-- Embedding of `SearchManager.search` (src/vfm/vfm.py:219-240).
`re.compile` runs first: an invalid pattern is an error before anything
else happens (empty trace, no results).  Otherwise the resolved
directories are scanned in order with deduplication by path. -/
def search (compile : String → Bool → Option (String → Bool)) (rp : String → String)
    (spaces : List (String × String)) (fs : FS) (target pattern : String)
    (ignore_case : Bool) :
    Except Unit (List (String × Option String)) × List Eff :=
  match compile pattern ignore_case with
  | none => (Except.error (), [])
  | some regex =>
    let dirs := resolve_dirs rp spaces target
    let st := ((dirs.map fs.rglobMd).flatten).foldl (scanStep regex fs) ([], [], [])
    (Except.ok st.1, st.2.2)

/-- Embedding of `SearchManager._handle_results` (src/vfm/vfm.py:256-276).
The result is the file handed to the editor (if any) together with the
number of `input()` prompts issued.  With two or more matches the code
prompts exactly once: `choice = input(...).strip()`, and opens
`matches[int(choice) - 1]` only if `choice.isdigit()` and the index is in
range; any other input falls through silently. -/
def handle_results (ms : List (String × Option String)) (inputs : List String) :
    Option String × Nat :=
  if ms.length = 0 then (none, 0)
  else if ms.length = 1 then (ms.head?.map Prod.fst, 0)
  else
    let choice := stripChars (inputs.headD "").data
    if pyIsDigit choice then
      let idx : Int := (pyStrToNat choice : Int) - 1
      if 0 ≤ idx ∧ idx < (ms.length : Int) then
        ((ms.get? idx.toNat).map Prod.fst, 1)
      else (none, 1)
    else (none, 1)

end SearchManager

/-- A produced match record is consistent with the scanned file: the file
was readable, its text matched the pattern, and the record's second
component is the extracted H1 title of that text. -/
def scanOK (regex : String → Bool) (fs : FS) (m : String × Option String) : Bool :=
  match fs.read m.1 with
  | none => false
  | some text => regex text && (m.2 == SearchManager.extract_h1 text)

/-- The tag hidden in one frontmatter line, if any (the per-line logic of
`StatsManager.count_tags`, src/vfm/vfm.py:361-366): strip the line; a
leading `"- "` marks a tag, the stripped remainder, kept only when
nonempty. -/
def dashTagOf (line : List Char) : Option String :=
  let l := stripChars line
  if ['-', ' '].isPrefixOf l then
    let tag := stripChars (l.drop 2)
    if tag = [] then none else some ⟨tag⟩
  else none

/-- The per-file logic of `StatsManager.count_tags` (src/vfm/vfm.py:353-366):
no tags unless the text starts with `---`; split on `---` with maxsplit 2;
no tags unless that yields three parts; one tag per stripped
dash-space-prefixed line of the middle part. -/
def tagsOfText (text : String) : List String :=
  if ['-', '-', '-'].isPrefixOf text.data then
    let parts := pySplitDash2 text.data
    if parts.length < 3 then []
    else (splitlinesChars (parts.getD 1 [])).filterMap dashTagOf
  else []

/-- The first delimited segment as the spec words it: the text between the
end of the leading `---` delimiter and the next occurrence of `---`;
`none` when there is no second delimiter.  Written as a direct left-to-right
search, independently of the `split`-based code path. -/
def upToDashes : List Char → Option (List Char)
  | [] => none
  | [_] => none
  | [_, _] => none
  | c :: d :: e :: rest =>
    if c == '-' && d == '-' && e == '-' then some []
    else (upToDashes (d :: e :: rest)).map (fun s => c :: s)

/-- Modelled from the spec: the excerpt field of a `MatchRecord`
(spec §3, §4.3) — the first line that itself contains a pattern
occurrence, trimmed, truncated to 100 characters plus an ellipsis marker
when longer; the empty string when no single line matches.  No code in
`src/` computes an excerpt; this definition exists only to state that
absence. -/
def specExcerpt (regex : String → Bool) (text : String) : String :=
  match (splitlinesChars text.data).find? (fun l => regex ⟨l⟩) with
  | none => ""
  | some l =>
    let t := stripChars l
    if 100 < t.length then ⟨t.take 100 ++ ['…']⟩ else ⟨t⟩

/-- The statistics record accumulated by `StatsManager.stats`. -/
structure StatsOut where
  dirCount : Nat
  fileCount : Nat
  lineCount : Nat
  wordCount : Nat
deriving DecidableEq

namespace StatsManager

/-- The loop body of `StatsManager.stats` (src/vfm/vfm.py:298-309) on one
`rglob("*")` entry: directories bump `dir_count`; `.md` files (suffix
lowercased) bump `file_count`, are read (a failed read is skipped after
counting), and contribute line and word counts. -/
def statsStep (fs : FS) (acc : StatsOut × List Eff) (e : Entry) : StatsOut × List Eff :=
  match e with
  | .dir _ => ({ acc.1 with dirCount := acc.1.dirCount + 1 }, acc.2)
  | .file p =>
    if lowerChars (pySuffix p) = ['.', 'm', 'd'] then
      let c := { acc.1 with fileCount := acc.1.fileCount + 1 }
      let tr := acc.2 ++ [Eff.read p]
      match fs.read p with
      | none => (c, tr)
      | some text =>
        let ls := splitlinesChars text.data
        ({ c with
            lineCount := c.lineCount + ls.length
            wordCount := c.wordCount + (ls.map pyWordCount).sum }, tr)
    else acc

/-- The counting walk of `StatsManager.stats` (src/vfm/vfm.py:286-311):
resolve the target, skip directories that do not exist, accumulate over
every `rglob("*")` entry. -/
def statsCore (rp : String → String) (spaces : List (String × String)) (fs : FS)
    (target : String) : StatsOut × List Eff :=
  (resolve_dirs rp spaces target).foldl
    (fun acc d => if fs.dirs.contains d then (fs.rglobAll d).foldl (statsStep fs) acc else acc)
    (⟨0, 0, 0, 0⟩, [])

/-- One `tag_counter[tag] += 1` on the insertion-ordered counter.  The
increments are the ones lines 361-366 of the source are written to
perform; that code is unreachable at runtime (see `count_tags`), so this
models the behaviour the function's own docstring documents, with
`Counter` read as the standard `collections.Counter`. -/
def counterAdd (c : List (String × Nat)) (tag : String) : List (String × Nat) :=
  if c.any (fun kv => kv.1 = tag) then
    c.map (fun kv => if kv.1 = tag then (kv.1, kv.2 + 1) else kv)
  else c ++ [(tag, 1)]

/-- The per-file body written at src/vfm/vfm.py:347-366 (unreachable, see
`count_tags`): read the file (a failed read is skipped) and count every
extracted tag. -/
def tagStep (fs : FS) (acc : List (String × Nat) × List Eff) (p : String) :
    List (String × Nat) × List Eff :=
  let tr := acc.2 ++ [Eff.read p]
  match fs.read p with
  | none => (acc.1, tr)
  | some text => ((tagsOfText text).foldl counterAdd acc.1, tr)

/-- Embedding of `StatsManager.count_tags` (src/vfm/vfm.py:330-374) as it
actually executes: line 340 resolves the directories (pure), then line
341, `tag_counter = Counter()`, raises `NameError` on every call — the
module never imports `collections.Counter`.  The call therefore fails
before reading any file and produces no counter; the error propagates to
the caller. -/
def count_tags (rp : String → String) (spaces : List (String × String)) (_fs : FS)
    (target : String) : Except Unit (List (String × Nat)) × List Eff :=
  let _dirs := resolve_dirs rp spaces target
  (Except.error (), [])

/-- The computation lines 342-374 of `count_tags` are written to perform
(and that its docstring documents): the tag-frequency counter over all
`.md` files of the resolved directories (no deduplication across
directories — the source keeps no `seen` set here).  Unreachable at
runtime because line 341 raises first; kept to state what the code would
compute were `Counter` imported. -/
def count_tags_documented (rp : String → String) (spaces : List (String × String))
    (fs : FS) (target : String) : List (String × Nat) × List Eff :=
  (resolve_dirs rp spaces target).foldl
    (fun acc d => if fs.dirs.contains d then (fs.rglobMd d).foldl (tagStep fs) acc else acc)
    ([], [])

/-- Embedding of `StatsManager.stats` (src/vfm/vfm.py:286-312): the
counting walk completes (and prints), then the final
`self.count_tags(target)` raises `NameError`, so the method never returns
normally — the counts were computed and only the walk's reads happened. -/
def stats (rp : String → String) (spaces : List (String × String)) (fs : FS)
    (target : String) : (StatsOut × Except Unit (List (String × Nat))) × List Eff :=
  let core := statsCore rp spaces fs target
  let tags := count_tags rp spaces fs target
  ((core.1, tags.1), core.2 ++ tags.2)

end StatsManager

namespace NoteManager

/-- Embedding of `NoteManager._resolve_target` (src/vfm/vfm.py:154-157):
a configured space name or a literal path; note there is no `"all"`
sentinel here. -/
def resolve_target (rp : String → String) (spaces : List (String × String))
    (target : String) : String :=
  match dictLookup spaces target with
  | some dir => rp dir
  | none => rp target

/-- Embedding of `NoteManager.create` (src/vfm/vfm.py:137-152): make the
base directory, ask for a name (empty input falls back to `"new-note"`),
and write the templated note — the only core-adjacent operation that
mutates the filesystem. -/
def create (rp : String → String) (spaces : List (String × String))
    (target userInput : String) (epoch : Nat) (content : String) :
    String × List Eff :=
  let base := resolve_target rp spaces target
  let name := if stripChars userInput.data = [] then "new-note"
              else (⟨stripChars userInput.data⟩ : String)
  let fp := base ++ "/" ++ name ++ "-" ++ toString epoch ++ ".md"
  (fp, [Eff.mkdir base, Eff.write fp content])

end NoteManager

/-! ### Invariants of the scan fold -/

/-- Invariant of the scan fold of `SearchManager.search`: the paths of the
produced match records are exactly the `seen` list, the `seen` list stays
duplicate-free, every produced record is consistent with its file
(`scanOK`), and the effect trace stays mutation-free. -/
theorem scan_foldl_inv (regex : String → Bool) (fs : FS) (files : List String)
    (ms : List (String × Option String)) (seen : List String) (tr : List Eff)
    (h1 : ms.map Prod.fst = seen) (h2 : seen.Nodup)
    (h3 : ms.all (scanOK regex fs) = true) (h4 : noWrites tr = true) :
    (files.foldl (SearchManager.scanStep regex fs) (ms, seen, tr)).1.map Prod.fst
        = (files.foldl (SearchManager.scanStep regex fs) (ms, seen, tr)).2.1
  ∧ (files.foldl (SearchManager.scanStep regex fs) (ms, seen, tr)).2.1.Nodup
  ∧ (files.foldl (SearchManager.scanStep regex fs) (ms, seen, tr)).1.all (scanOK regex fs)
        = true
  ∧ noWrites (files.foldl (SearchManager.scanStep regex fs) (ms, seen, tr)).2.2 = true := by
  induction files generalizing ms seen tr with
  | nil => exact ⟨h1, h2, h3, h4⟩
  | cons md rest ih =>
    simp only [List.foldl_cons]
    cases hc : seen.contains md with
    | true =>
      simp only [SearchManager.scanStep, hc, if_true]
      exact ih ms seen tr h1 h2 h3 h4
    | false =>
      have hread : noWrites (tr ++ [Eff.read md]) = true := by
        simp [noWrites, List.all_append, Eff.mutates] at h4 ⊢; exact h4
      cases hr : fs.read md with
      | none =>
        simp only [SearchManager.scanStep, hc, Bool.false_eq_true, if_false, hr]
        exact ih ms seen (tr ++ [Eff.read md]) h1 h2 h3 hread
      | some text =>
        cases hregex : regex text with
        | false =>
          simp only [SearchManager.scanStep, hc, Bool.false_eq_true, if_false, hr, hregex]
          exact ih ms seen (tr ++ [Eff.read md]) h1 h2 h3 hread
        | true =>
          simp only [SearchManager.scanStep, hc, Bool.false_eq_true, if_false, hr, hregex,
            if_true]
          have hnotmem : md ∉ seen := by simp [List.elem_iff] at hc; exact hc
          refine ih _ _ _ ?_ ?_ ?_ hread
          · simp [h1]
          · simp [List.nodup_append, h2, hnotmem]
          · simp [List.all_append, h3, scanOK, hr, hregex]

/-! ### Claims about searching -/

/-- C2: when the search pattern is not a valid regular expression the error
is reported to the caller, before any file is read (the effect trace is
empty) and with no partial results. -/
theorem c2_invalid_pattern (compile : String → Bool → Option (String → Bool))
    (rp : String → String) (spaces : List (String × String)) (fs : FS)
    (target pattern : String) (ignore_case : Bool)
    (h : compile pattern ignore_case = none) :
    SearchManager.search compile rp spaces fs target pattern ignore_case
      = (Except.error (), []) := by
  unfold SearchManager.search
  rw [h]

/-- `c2_invalid_pattern` at the spec's scenario: the pattern `"("` does not
compile under the `re` model, and the search reports the error having read
nothing. -/
theorem c2_invalid_pattern_witness :
    reCompileModel "(" false = none
  ∧ SearchManager.search reCompileModel id [("s", "/sp")]
      ⟨[("/sp/a.md", "TODO")], ["/sp"]⟩ "s" "(" false = (Except.error (), []) :=
  ⟨rfl, c2_invalid_pattern reCompileModel id [("s", "/sp")]
    ⟨[("/sp/a.md", "TODO")], ["/sp"]⟩ "s" "(" false rfl⟩

/-- C7: a successful scan reports each physical file at most once — the
paths of the returned match records are pairwise distinct, whatever the
resolved directories (in particular when one is nested inside another). -/
theorem c7_dedup (compile : String → Bool → Option (String → Bool))
    (rp : String → String) (spaces : List (String × String)) (fs : FS)
    (target pattern : String) (ignore_case : Bool)
    (ms : List (String × Option String))
    (hs : (SearchManager.search compile rp spaces fs target pattern ignore_case).1
            = Except.ok ms) :
    (ms.map Prod.fst).Nodup := by
  unfold SearchManager.search at hs
  cases hc : compile pattern ignore_case with
  | none => rw [hc] at hs; simp at hs
  | some regex =>
    rw [hc] at hs
    simp only [Except.ok.injEq] at hs
    have inv := scan_foldl_inv regex fs
      (((SearchManager.resolve_dirs rp spaces target).map fs.rglobMd).flatten)
      [] [] [] rfl List.nodup_nil rfl rfl
    rw [hs] at inv
    rw [inv.1]
    exact inv.2.1

/-- `c7_dedup` on a nested-directory configuration: `/a/b` lies inside
`/a`, the one file is reachable through both resolved directories, and the
scan reports it exactly once. -/
theorem c7_dedup_witness :
    (SearchManager.search reCompileModel id [("s1", "/a"), ("s2", "/a/b")]
        ⟨[("/a/b/f.md", "TODO")], ["/a", "/a/b"]⟩ "all" "TODO" false).1
      = Except.ok [("/a/b/f.md", none)]
  ∧ ([("/a/b/f.md", (none : Option String))].map Prod.fst).Nodup :=
  ⟨rfl, c7_dedup reCompileModel id [("s1", "/a"), ("s2", "/a/b")]
    ⟨[("/a/b/f.md", "TODO")], ["/a", "/a/b"]⟩ "all" "TODO" false
    [("/a/b/f.md", none)] rfl⟩

/-- C4 fails on the code: the match record built by `SearchManager.search`
(src/vfm/vfm.py:237, `matches.append((md, title))`) has exactly two
components, the path and the title — no excerpt is computed anywhere.  At
this concrete input the spec's excerpt is the nonempty string
`"x TODO y"`, and neither component of the produced record equals it. -/
theorem c4_counterexample :
    (SearchManager.search reCompileModel id [("s", "/sp")]
        ⟨[("/sp/n.md", "x TODO y")], ["/sp"]⟩ "s" "TODO" false).1
      = Except.ok [("/sp/n.md", none)]
  ∧ specExcerpt (containsStr "TODO") "x TODO y" = "x TODO y"
  ∧ "/sp/n.md" ≠ "x TODO y"
  ∧ (none : Option String) ≠ some "x TODO y" :=
  ⟨rfl, by decide, by decide, by decide⟩

/-- C4 amended: every match record a successful search produces consists of
the matching file's path together with the optional H1 title extracted
from its text (`scanOK`); no excerpt field exists. -/
theorem c4_record_shape (compile : String → Bool → Option (String → Bool))
    (rp : String → String) (spaces : List (String × String)) (fs : FS)
    (target pattern : String) (ignore_case : Bool) (regex : String → Bool)
    (ms : List (String × Option String))
    (hc : compile pattern ignore_case = some regex)
    (hs : (SearchManager.search compile rp spaces fs target pattern ignore_case).1
            = Except.ok ms) :
    ms.all (scanOK regex fs) = true := by
  unfold SearchManager.search at hs
  rw [hc] at hs
  simp only [Except.ok.injEq] at hs
  have inv := scan_foldl_inv regex fs
    (((SearchManager.resolve_dirs rp spaces target).map fs.rglobMd).flatten)
    [] [] [] rfl List.nodup_nil rfl rfl
  rw [hs] at inv
  exact inv.2.2.1

/-- `c4_record_shape` at a concrete input: the single produced record is
the pair of the path and the (here absent) H1 title of the matching file. -/
theorem c4_record_shape_witness :
    ([("/sp/n.md", (none : Option String))].all
      (scanOK (containsStr "TODO") ⟨[("/sp/n.md", "x TODO y")], ["/sp"]⟩)) = true :=
  c4_record_shape reCompileModel id [("s", "/sp")]
    ⟨[("/sp/n.md", "x TODO y")], ["/sp"]⟩ "s" "TODO" false
    (containsStr "TODO") [("/sp/n.md", none)] rfl rfl

/-- C3 fails on the code: with two matches and the input stream
`["5", "1"]` (an out-of-range choice followed by a valid one),
`_handle_results` issues exactly one prompt and opens nothing — it does
not print a message and re-prompt, so the pending valid choice is never
consumed. -/
theorem c3_counterexample :
    SearchManager.handle_results [("a.md", none), ("b.md", none)] ["5", "1"]
      = (none, 1) := by decide

/-- C3 amended: with two or more matches the presenter prompts exactly
once; it opens the selected match precisely when the first input line,
stripped, is a digit string whose value `n` satisfies
`1 ≤ n ≤ number of matches` (empty, non-numeric and out-of-range input
open nothing, without re-prompting). -/
theorem c3_single_prompt (ms : List (String × Option String)) (inputs : List String)
    (h : 2 ≤ ms.length) :
    (SearchManager.handle_results ms inputs).2 = 1
  ∧ (SearchManager.handle_results ms inputs).1
      = (if pyIsDigit (stripChars (inputs.headD "").data)
            ∧ 1 ≤ pyStrToNat (stripChars (inputs.headD "").data)
            ∧ pyStrToNat (stripChars (inputs.headD "").data) ≤ ms.length
         then (ms.get? (pyStrToNat (stripChars (inputs.headD "").data) - 1)).map Prod.fst
         else none) := by
  unfold SearchManager.handle_results
  have hz : ¬ ms.length = 0 := by omega
  have ho : ¬ ms.length = 1 := by omega
  simp only [hz, ho, if_false]
  cases hd : pyIsDigit (stripChars (inputs.headD "").data) with
  | false => simp [hd]
  | true =>
    simp only [hd, if_true, true_and]
    by_cases hin : (0 : Int) ≤ (pyStrToNat (stripChars (inputs.headD "").data) : Int) - 1
        ∧ (pyStrToNat (stripChars (inputs.headD "").data) : Int) - 1 < (ms.length : Int)
    · have hr : 1 ≤ pyStrToNat (stripChars (inputs.headD "").data)
          ∧ pyStrToNat (stripChars (inputs.headD "").data) ≤ ms.length := by omega
      have htn : ((pyStrToNat (stripChars (inputs.headD "").data) : Int) - 1).toNat
          = pyStrToNat (stripChars (inputs.headD "").data) - 1 := by omega
      simp only [hin, if_true, hr, and_self, htn]
    · have hr : ¬ (1 ≤ pyStrToNat (stripChars (inputs.headD "").data)
          ∧ pyStrToNat (stripChars (inputs.headD "").data) ≤ ms.length) := by omega
      simp only [hin, if_false, hr, and_false]
      tauto

/-- `c3_single_prompt` at the spec's scenario "three matches, user enters
2": one prompt, second match opened. -/
theorem c3_single_prompt_witness :
    (SearchManager.handle_results
        [("a.md", none), ("b.md", none), ("c.md", none)] ["2"]).2 = 1
  ∧ (SearchManager.handle_results
        [("a.md", none), ("b.md", none), ("c.md", none)] ["2"]).1 = some "b.md" := by
  have h := c3_single_prompt [("a.md", none), ("b.md", none), ("c.md", none)] ["2"]
    (by decide)
  exact ⟨h.1, by rw [h.2]; decide⟩

/-! ### Claims about frontmatter parsing -/

theorem consHead_ne_nil (c : Char) (l : List (List Char)) : consHead c l ≠ [] := by
  cases l <;> simp [consHead]

theorem splitDashes_ne_nil (cs : List Char) : splitDashes cs ≠ [] := by
  induction cs using splitDashes.induct with
  | case1 => simp [splitDashes]
  | case2 c => simp [splitDashes]
  | case3 c d => simp [splitDashes]
  | case4 c d e rest h ih => simp [splitDashes, h]
  | case5 c d e rest h ih =>
    have hcond : (c == '-' && d == '-' && e == '-') = false := by
      simp only [Bool.not_eq_true] at h
      exact h
    simp only [splitDashes, hcond, Bool.false_eq_true, if_false]
    exact consHead_ne_nil _ _

/-- When the text holds no `---` delimiter, splitting on it returns the
text as the single part. -/
theorem splitDashes_of_upToDashes_none (cs : List Char)
    (h : upToDashes cs = none) : splitDashes cs = [cs] := by
  induction cs using splitDashes.induct with
  | case1 => simp [splitDashes]
  | case2 c => simp [splitDashes]
  | case3 c d => simp [splitDashes]
  | case4 c d e rest hc ih =>
    have : upToDashes (c :: d :: e :: rest) = some [] := by
      simp [upToDashes, hc]
    simp [this] at h
  | case5 c d e rest hc ih =>
    have hcond : (c == '-' && d == '-' && e == '-') = false := by
      simp only [Bool.not_eq_true] at hc
      exact hc
    have hup : upToDashes (d :: e :: rest) = none := by
      simp only [upToDashes, hcond, Bool.false_eq_true, if_false] at h
      cases hu : upToDashes (d :: e :: rest) with
      | none => rfl
      | some s => rw [hu] at h; simp at h
    simp only [splitDashes, hcond, Bool.false_eq_true, if_false, ih hup, consHead]

/-- When the first `---` delimiter occurrence bounds the segment `seg`,
splitting puts `seg` first, followed by at least one more part. -/
theorem splitDashes_of_upToDashes_some (cs seg : List Char)
    (h : upToDashes cs = some seg) :
    ∃ t, splitDashes cs = seg :: t ∧ t ≠ [] := by
  induction cs using splitDashes.induct generalizing seg with
  | case1 => simp [upToDashes] at h
  | case2 c => simp [upToDashes] at h
  | case3 c d => simp [upToDashes] at h
  | case4 c d e rest hc ih =>
    have hcond : (c == '-' && d == '-' && e == '-') = true := by simp [hc]
    simp only [upToDashes, hcond, if_true, Option.some.injEq] at h
    subst h
    exact ⟨splitDashes rest, by simp [splitDashes, hcond], splitDashes_ne_nil rest⟩
  | case5 c d e rest hc ih =>
    have hcond : (c == '-' && d == '-' && e == '-') = false := by
      simp only [Bool.not_eq_true] at hc
      exact hc
    simp only [upToDashes, hcond, Bool.false_eq_true, if_false, Option.map_eq_some'] at h
    obtain ⟨seg0, hseg0, rfl⟩ := h
    obtain ⟨t, hsplit, hne⟩ := ih seg0 hseg0
    refine ⟨t, ?_, hne⟩
    simp only [splitDashes, hcond, Bool.false_eq_true, if_false, hsplit, consHead]

theorem splitDashes_triple (rest : List Char) :
    splitDashes ('-' :: '-' :: '-' :: rest) = [] :: splitDashes rest := by
  simp [splitDashes]

/-- The tag-extraction logic as written at src/vfm/vfm.py:353-366
(unreachable at runtime, see `count_tags`): the spec's example yields
`["a", "b"]`; a file not beginning with the `---` delimiter yields no
tags; a file beginning with the delimiter but containing no second
occurrence yields no tags; and a file beginning with the delimiter whose
following text runs up to a second occurrence as `seg` yields exactly one
tag per stripped dash-space-prefixed line of `seg`; the function is
total. -/
theorem tagsOfText_segments :
    tagsOfText "---\ntags:\n  - a\n  - b\n---\nbody" = ["a", "b"]
  ∧ (∀ text : String, ['-', '-', '-'].isPrefixOf text.data = false → tagsOfText text = [])
  ∧ (∀ (text : String) (rest : List Char), text.data = '-' :: '-' :: '-' :: rest →
      upToDashes rest = none → tagsOfText text = [])
  ∧ (∀ (text : String) (rest seg : List Char), text.data = '-' :: '-' :: '-' :: rest →
      upToDashes rest = some seg →
      tagsOfText text = (splitlinesChars seg).filterMap dashTagOf) := by
  refine ⟨by decide, ?_, ?_, ?_⟩
  · intro text h
    simp [tagsOfText, h]
  · intro text rest hdata hup
    have hsplit := splitDashes_of_upToDashes_none rest hup
    simp [tagsOfText, hdata, List.isPrefixOf, pySplitDash2, splitDashes_triple, hsplit]
  · intro text rest seg hdata hup
    obtain ⟨t, hsplit, hne⟩ := splitDashes_of_upToDashes_some rest seg hup
    cases t with
    | nil => exact absurd rfl hne
    | cons t1 t2 =>
      simp [tagsOfText, hdata, List.isPrefixOf, pySplitDash2, splitDashes_triple, hsplit,
        List.getD]

/-- C5 names the right extraction semantics but the program cannot run
them: every call of `count_tags` raises `NameError` at src/vfm/vfm.py:341
(`Counter` is never imported) before reading any file, so tag extraction
never yields anything — in particular the claim's "never raises" fails on
every input, including the spec's example corpus.  The unreachable
extraction logic of lines 353-366 would yield `["a", "b"]` on the spec's
example, so the claim describes the code's own documented intent. -/
theorem c5_tag_crash :
    (∀ (rp : String → String) (spaces : List (String × String)) (fs : FS)
        (target : String),
      StatsManager.count_tags rp spaces fs target = (Except.error (), []))
  ∧ (StatsManager.count_tags id [("s", "/sp")]
        ⟨[("/sp/a.md", "---\ntags:\n  - a\n  - b\n---\nbody")], ["/sp"]⟩ "s").1
      = Except.error ()
  ∧ tagsOfText "---\ntags:\n  - a\n  - b\n---\nbody" = ["a", "b"] :=
  ⟨fun _ _ _ _ => rfl, rfl, by decide⟩

/-- C6 fails on the code: `_extract_h1` accepts a line consisting of `"# "`
followed by whitespace only.  On `"#  \n# Real"` the claim prescribes the
title `"Real"` (its first line has no non-whitespace content after the
marker, so the claim skips it), but the code stops at the first line and
returns the empty title. -/
theorem c6_counterexample :
    SearchManager.extract_h1 "#  \n# Real" = some ""
  ∧ SearchManager.extract_h1 "#  \n# Real" ≠ some "Real" := by
  exact ⟨by decide, by decide⟩

/-- C6 amended: title extraction returns `line[2:].strip()` of the first
line (in file order) that starts with one `#` character followed by a
space — the content after the marker may be empty or whitespace — skipping
lines that start with `##`, and returns none when no such line exists
anywhere in the file. -/
theorem c6_title_extraction (text : String) :
    SearchManager.extract_h1 text
      = ((splitlinesChars text.data).find?
            (fun l => ['#', ' '].isPrefixOf l && !(['#', '#'].isPrefixOf l))).map
          (fun l => (⟨stripChars (l.drop 2)⟩ : String)) := by
  unfold SearchManager.extract_h1
  generalize splitlinesChars text.data = lines
  induction lines with
  | nil => rfl
  | cons line rest ih =>
    simp only [SearchManager.extract_h1_go, List.find?]
    cases hline : (['#', ' '].isPrefixOf line && !(['#', '#'].isPrefixOf line)) with
    | true => simp [hline]
    | false => simp [hline, ih]

/-! ### Claims about effects and statistics -/

theorem noWrites_append_read (tr : List Eff) (p : String) (h : noWrites tr = true) :
    noWrites (tr ++ [Eff.read p]) = true := by
  simp only [noWrites, List.all_append, Bool.and_eq_true] at h ⊢
  exact ⟨h, by simp [Eff.mutates]⟩

/-- The counting fold of `stats` only ever reads. -/
theorem statsStep_fold_trace (fs : FS) (es : List Entry) (acc : StatsOut × List Eff)
    (h : noWrites acc.2 = true) :
    noWrites ((es.foldl (StatsManager.statsStep fs) acc)).2 = true := by
  induction es generalizing acc with
  | nil => exact h
  | cons e rest ih =>
    simp only [List.foldl_cons]
    apply ih
    cases e with
    | dir p => simpa [StatsManager.statsStep] using h
    | file p =>
      by_cases hmd : lowerChars (pySuffix p) = ['.', 'm', 'd']
      · cases hr : fs.read p with
        | none =>
          simpa [StatsManager.statsStep, hmd, hr] using noWrites_append_read acc.2 p h
        | some text =>
          simpa [StatsManager.statsStep, hmd, hr] using noWrites_append_read acc.2 p h
      · simpa [StatsManager.statsStep, hmd] using h

/-- The per-directory fold of `stats` only ever reads. -/
theorem statsDirs_fold_trace (fs : FS) (ds : List String) (acc : StatsOut × List Eff)
    (h : noWrites acc.2 = true) :
    noWrites ((ds.foldl (fun acc d => if fs.dirs.contains d
        then (fs.rglobAll d).foldl (StatsManager.statsStep fs) acc else acc) acc)).2
      = true := by
  induction ds generalizing acc with
  | nil => exact h
  | cons d rest ih =>
    simp only [List.foldl_cons]
    apply ih
    cases hd : fs.dirs.contains d with
    | true => simp only [hd, if_true]; exact statsStep_fold_trace fs _ acc h
    | false => simpa [hd] using h

/-- The tag-counting fold of `count_tags_documented` only ever reads (the
real `count_tags` raises before performing any effect at all). -/
theorem tagStep_fold_trace (fs : FS) (ps : List String)
    (acc : List (String × Nat) × List Eff) (h : noWrites acc.2 = true) :
    noWrites ((ps.foldl (StatsManager.tagStep fs) acc)).2 = true := by
  induction ps generalizing acc with
  | nil => exact h
  | cons p rest ih =>
    simp only [List.foldl_cons]
    apply ih
    cases hr : fs.read p with
    | none => simpa [StatsManager.tagStep, hr] using noWrites_append_read acc.2 p h
    | some text => simpa [StatsManager.tagStep, hr] using noWrites_append_read acc.2 p h

/-- The per-directory fold of `count_tags_documented` only ever reads. -/
theorem tagDirs_fold_trace (fs : FS) (ds : List String)
    (acc : List (String × Nat) × List Eff) (h : noWrites acc.2 = true) :
    noWrites ((ds.foldl (fun acc d => if fs.dirs.contains d
        then (fs.rglobMd d).foldl (StatsManager.tagStep fs) acc else acc) acc)).2
      = true := by
  induction ds generalizing acc with
  | nil => exact h
  | cons d rest ih =>
    simp only [List.foldl_cons]
    apply ih
    cases hd : fs.dirs.contains d with
    | true => simp only [hd, if_true]; exact tagStep_fold_trace fs _ acc h
    | false => simpa [hd] using h

/-- C8: target resolution, searching and statistics aggregation never
mutate the filesystem — their effect traces hold no write or mkdir
(resolution performs no filesystem effect at all: `resolve_dirs` is a pure
function of its arguments, and the `stats` trace is the counting walk's
reads, its final `count_tags` call aborting with `NameError` before any
effect); note creation, by contrast, does mutate. -/
theorem c8_no_mutation (compile : String → Bool → Option (String → Bool))
    (rp : String → String) (spaces : List (String × String)) (fs : FS)
    (target pattern : String) (ignore_case : Bool)
    (target2 target3 userInput : String) (epoch : Nat) (content : String) :
    noWrites (SearchManager.search compile rp spaces fs target pattern ignore_case).2 = true
  ∧ noWrites (StatsManager.stats rp spaces fs target2).2 = true
  ∧ (NoteManager.create rp spaces target3 userInput epoch content).2.any Eff.mutates
      = true := by
  refine ⟨?_, ?_, ?_⟩
  · unfold SearchManager.search
    cases hc : compile pattern ignore_case with
    | none => rfl
    | some regex =>
      have inv := scan_foldl_inv regex fs
        (((SearchManager.resolve_dirs rp spaces target).map fs.rglobMd).flatten)
        [] [] [] rfl List.nodup_nil rfl rfl
      simpa using inv.2.2.2
  · unfold StatsManager.stats
    have h1 : noWrites (StatsManager.statsCore rp spaces fs target2).2 = true := by
      unfold StatsManager.statsCore
      exact statsDirs_fold_trace fs _ _ rfl
    have h2 : noWrites (StatsManager.count_tags rp spaces fs target2).2 = true := rfl
    simp only [noWrites, List.all_append] at h1 h2 ⊢
    simp [h1, h2]
  · simp [NoteManager.create, Eff.mutates]

/-! ### Claims about the tag counter -/

theorem dashTagOf_ne_empty (line : List Char) (t : String)
    (h : dashTagOf line = some t) : t ≠ "" := by
  simp only [dashTagOf] at h
  split at h
  · split at h
    · exact absurd h (by simp)
    · rename_i htag
      rw [Option.some.injEq] at h
      subst h
      intro he
      exact htag (congrArg String.data he)
  · exact absurd h (by simp)

theorem tagsOfText_ne_empty (text : String) (t : String) (h : t ∈ tagsOfText text) :
    t ≠ "" := by
  unfold tagsOfText at h
  by_cases hpre : ['-', '-', '-'].isPrefixOf text.data = true
  · by_cases hlen : (pySplitDash2 text.data).length < 3
    · simp [hpre, hlen] at h
    · simp only [hpre, if_true, hlen, if_false] at h
      obtain ⟨a, _, ha⟩ := List.mem_filterMap.mp h
      exact dashTagOf_ne_empty a t ha
  · simp [hpre] at h

/-- No key of the counter is the empty string. -/
def keysNE (c : List (String × Nat)) : Prop := ∀ kv ∈ c, kv.1 ≠ ""

theorem counterAdd_keysNE (c : List (String × Nat)) (tag : String)
    (htag : tag ≠ "") (h : keysNE c) : keysNE (StatsManager.counterAdd c tag) := by
  unfold StatsManager.counterAdd
  split
  · intro kv hkv
    obtain ⟨kv0, hkv0, rfl⟩ := List.mem_map.mp hkv
    by_cases hkt : kv0.1 = tag
    · simpa [hkt] using htag
    · simpa [hkt] using h kv0 hkv0
  · intro kv hkv
    rcases List.mem_append.mp hkv with h1 | h2
    · exact h kv h1
    · simp only [List.mem_singleton] at h2
      subst h2
      exact htag

theorem counterFold_keysNE (tags : List String) (c : List (String × Nat))
    (htags : ∀ t ∈ tags, t ≠ "") (h : keysNE c) :
    keysNE (tags.foldl StatsManager.counterAdd c) := by
  induction tags generalizing c with
  | nil => exact h
  | cons t rest ih =>
    simp only [List.foldl_cons]
    apply ih
    · exact fun u hu => htags u (List.mem_cons_of_mem t hu)
    · exact counterAdd_keysNE c t (htags t (List.mem_cons_self t rest)) h

theorem tagStep_fold_keysNE (fs : FS) (ps : List String)
    (acc : List (String × Nat) × List Eff) (h : keysNE acc.1) :
    keysNE ((ps.foldl (StatsManager.tagStep fs) acc)).1 := by
  induction ps generalizing acc with
  | nil => exact h
  | cons p rest ih =>
    simp only [List.foldl_cons]
    apply ih
    cases hr : fs.read p with
    | none => simpa [StatsManager.tagStep, hr] using h
    | some text =>
      simp only [StatsManager.tagStep, hr]
      exact counterFold_keysNE _ _ (fun t ht => tagsOfText_ne_empty text t ht) h

theorem tagDirs_fold_keysNE (fs : FS) (ds : List String)
    (acc : List (String × Nat) × List Eff) (h : keysNE acc.1) :
    keysNE ((ds.foldl (fun acc d => if fs.dirs.contains d
        then (fs.rglobMd d).foldl (StatsManager.tagStep fs) acc else acc) acc)).1 := by
  induction ds generalizing acc with
  | nil => exact h
  | cons d rest ih =>
    simp only [List.foldl_cons]
    apply ih
    cases hd : fs.dirs.contains d with
    | true => simp only [hd, if_true]; exact tagStep_fold_keysNE fs _ acc h
    | false => simpa [hd] using h

/-- C10 speaks of a mapping the program never produces: every call of
`count_tags` raises `NameError` at src/vfm/vfm.py:341 (`Counter` is never
imported), so statistics aggregation yields no tag-frequency mapping at
all.  The counting logic as written at lines 342-366
(`count_tags_documented`, with its `if tag:` guard) would never put the
empty string in the counter, so the claimed invariant is the code's
documented intent. -/
theorem c10_no_mapping (rp : String → String) (spaces : List (String × String))
    (fs : FS) (target : String) :
    (StatsManager.count_tags rp spaces fs target).1 = Except.error ()
  ∧ ∀ kv ∈ (StatsManager.count_tags_documented rp spaces fs target).1, kv.1 ≠ "" := by
  refine ⟨rfl, ?_⟩
  unfold StatsManager.count_tags_documented
  exact tagDirs_fold_keysNE fs (StatsManager.resolve_dirs rp spaces target) ([], [])
    (fun kv hkv => absurd hkv (List.not_mem_nil kv))

/-- `c10_no_mapping` at a concrete corpus: the real `count_tags` errors,
while the documented counter holds the key `"a"` with multiplicity 2 and
no empty key. -/
theorem c10_no_mapping_witness :
    (StatsManager.count_tags id [("s", "/sp")]
        ⟨[("/sp/a.md", "---\ntags:\n  - a\n  - b\n---\nx"),
          ("/sp/b.md", "---\ntags:\n  - a\n---\ny")], ["/sp"]⟩ "s").1
      = Except.error ()
  ∧ ("a", 2) ∈ (StatsManager.count_tags_documented id [("s", "/sp")]
        ⟨[("/sp/a.md", "---\ntags:\n  - a\n  - b\n---\nx"),
          ("/sp/b.md", "---\ntags:\n  - a\n---\ny")], ["/sp"]⟩ "s").1
  ∧ ("a" : String) ≠ "" := by
  refine ⟨(c10_no_mapping id [("s", "/sp")]
    ⟨[("/sp/a.md", "---\ntags:\n  - a\n  - b\n---\nx"),
      ("/sp/b.md", "---\ntags:\n  - a\n---\ny")], ["/sp"]⟩ "s").1, by decide, ?_⟩
  exact (c10_no_mapping id [("s", "/sp")]
    ⟨[("/sp/a.md", "---\ntags:\n  - a\n  - b\n---\nx"),
      ("/sp/b.md", "---\ntags:\n  - a\n---\ny")], ["/sp"]⟩ "s").2 ("a", 2) (by decide)
end VFM
